import Mathlib

/-!
Verification of the spacerocks entity/physics/networking core.

This file is a shallow embedding of the JavaScript sources
(`src/spacerocks/entities.js`, `src/spacerocks/game.js`,
`src/spacerocks/network.js`) into Lean 4, together with theorems
settling the specification claims C1-C10.

Modelling conventions:
* JS numbers are embedded into an arbitrary `LinearOrderedField α`;
  theorems instantiate `α := ℚ` (so witnesses evaluate by `decide`)
  except where `Math.sqrt` / trigonometry is essential to the claim,
  where `α := ℝ` with `Real.sqrt`, `Real.sin`, `Real.cos`.
* Library calls (`Math.sqrt`, `Math.sin`, `Math.cos`, `Math.atan2`,
  `Math.random`, `jspack.Pack`) are passed as explicit function
  parameters to the definitions that call them, in the position where
  the JS code calls them; theorems instantiate them as needed.
* Mutation is modelled by state passing: a method mutating `this`
  becomes a function `State → State` (or returns the extra values it
  produces, e.g. spawned entities, as data).
* Flattened JS coordinate arrays (`[x0, y0, x1, y1, ...]`) are
  `List α`; out-of-range indexed reads use `List.getD _ _ 0` (all
  call sites in the game use even-length arrays, where no
  out-of-range read happens on the inspected paths).
-/

namespace Spacerocks

/-- Constant `game.width` (`game.js`: `exports.width = 1280`). -/
def gameWidth {α : Type} [LinearOrderedField α] : α := 1280

/-- Constant `game.height` (`game.js`: `exports.height = 720`). -/
def gameHeight {α : Type} [LinearOrderedField α] : α := 720

/-- Constant `asteroidSmallScale = 12` (`game.js`). -/
def asteroidSmallScale {α : Type} [LinearOrderedField α] : α := 12

/-- Constant `asteroidMediumScale = 32` (`game.js`). -/
def asteroidMediumScale {α : Type} [LinearOrderedField α] : α := 32

/-- Constant `asteroidLargeScale = 64` (`game.js`). -/
def asteroidLargeScale {α : Type} [LinearOrderedField α] : α := 64

/-- Constant `bulletVelocity = 320` (`game.js`). -/
def bulletVelocity {α : Type} [LinearOrderedField α] : α := 320

/-- Constant `shipBulletTimer = 0.2` (`game.js`). -/
def shipBulletTimer {α : Type} [LinearOrderedField α] : α := 1 / 5

/-- Constant `shipTurnVelocity = 256` (`game.js`). -/
def shipTurnVelocity {α : Type} [LinearOrderedField α] : α := 256

/-- Constant `shipPoints` (`game.js`): the ship polygon, flattened x,y pairs. -/
def shipPoints {α : Type} [LinearOrderedField α] : List α :=
  [0, -10, -15/2, 10, -4, 7, 4, 7, 15/2, 10]

/-- The state of a JS `Entity` object (`entities.js`, constructor
`Entity(id)`): kinematic fields, flattened polygon points, and the
cached bounding-circle values. -/
structure Entity (α : Type) where
  dead : Bool
  id : ℕ
  x : α
  y : α
  vx : α
  vy : α
  angle : α
  scale : α
  points : List α
  radius : α
  radiusSquared : α
  deriving DecidableEq

namespace Entity

variable {α : Type} [LinearOrderedField α]

/-- The loop body of `Entity.prototype.updateRadius` (`entities.js`):
fold over the flattened point array two coordinates at a time,
keeping the largest `(scale*x)^2 + (scale*y)^2` seen so far (starting
from 0).  A dangling odd coordinate is ignored, as in JS, where
`p[i+1]` would be `undefined` and the `NaN` comparison is false. -/
def maxRadiusSquaredAux (s : α) : α → List α → α
  | m, px :: py :: rest =>
      let x := s * px
      let y := s * py
      let rsq := x * x + y * y
      maxRadiusSquaredAux s (if m < rsq then rsq else m) rest
  | m, [_] => m
  | m, [] => m

/-- Model of `Entity.prototype.updateRadius` without the final `Math.sqrt`:
the exact value assigned to `this.radiusSquared`. -/
def maxRadiusSquared (s : α) (ps : List α) : α :=
  maxRadiusSquaredAux s 0 ps

/-- Model of `Entity.prototype.updateRadius` (`entities.js`): recompute
`radiusSquared` from the current points and scale and set
`radius = Math.sqrt(radiusSquared)`.  `sqrt` is the `Math.sqrt`
parameter. -/
def updateRadius (sqrt : α → α) (e : Entity α) : Entity α :=
  let m := maxRadiusSquared e.scale e.points
  { e with radiusSquared := m, radius := sqrt m }

/-- Model of `Entity.prototype.setPoints(points, scale, broadcast)`
(`entities.js`): replace the points, optionally the scale
(`scale !== undefined`), and recompute the radius.  The broadcast has
no effect on entity state and is omitted. -/
def setPoints (sqrt : α → α) (ps : List α) (scale : Option α) (e : Entity α) :
    Entity α :=
  let e1 := { e with points := ps }
  let e2 := match scale with
    | some s => { e1 with scale := s }
    | none => e1
  updateRadius sqrt e2

/-- Model of `Entity.prototype.setScale(scale)` (`entities.js`). -/
def setScale (sqrt : α → α) (s : α) (e : Entity α) : Entity α :=
  updateRadius sqrt { e with scale := s }

/-- Model of `Entity.prototype.spawn(x, y, vx, vy, angle, scale, points)`
(`entities.js`).  The numeric arguments go through the JS `v || 0`
pattern: an absent (`undefined`) argument and a passed `0` both
store `0`, modelled by `Option α` with `getD 0`.  `scale` and
`points` follow the `!== undefined` checks of the source. -/
def spawn (sqrt : α → α) (x y vx vy angle : Option α) (scale : Option α)
    (ps : Option (List α)) (e : Entity α) : Entity α :=
  let e1 := { e with
    dead := false
    x := x.getD 0
    y := y.getD 0
    vx := vx.getD 0
    vy := vy.getD 0
    angle := angle.getD 0 }
  match ps with
  | some p => setPoints sqrt p (some (scale.getD e1.scale)) e1
  | none =>
      match scale with
      | some s => setScale sqrt s e1
      | none => e1

/-- Model of `Entity.prototype.update` (`entities.js`): dead entities are left
untouched; otherwise integrate position by `velocity * game.dt` and
apply the four sequential wraparound `if`s exactly as written. -/
def update (dt : α) (e : Entity α) : Entity α :=
  if e.dead then e
  else
    let x1 := e.x + e.vx * dt
    let y1 := e.y + e.vy * dt
    let x2 := if x1 < -e.radius then gameWidth + e.radius else x1
    let y2 := if y1 < -e.radius then gameHeight + e.radius else y1
    let x3 := if x2 > gameWidth + e.radius then -e.radius else x2
    let y3 := if y2 > gameHeight + e.radius then -e.radius else y2
    { e with x := x3, y := y3 }

end Entity

variable {α : Type} [LinearOrderedField α]

/-- Decidable rendering of the comparison
`Math.sqrt s > r` (for `s ≥ 0`), used for the cheap radius rejection
at the top of `Entity.prototype.overlaps`:
`sqrt s > r` iff `r < 0` or `r^2 < s`.  Lemma `sqrtGt_iff_real`
below proves this equal to the real-number comparison. -/
def sqrtGt (s r : α) : Bool :=
  r < 0 || r * r < s

/-- The segment-against-segment test in the inner loop of
`Entity.prototype.overlaps` (`entities.js`): the parametric
intersection formula.  Returns `true` exactly when the JS inner-loop
body would `return true` for this pair of segments. -/
def segmentsHit (a1x a1y a2x a2y b1x b1y b2x b2y : α) : Bool :=
  let uB := (b2y - b1y) * (a2x - a1x) - (b2x - b1x) * (a2y - a1y)
  if uB = 0 then false
  else
    let ua := ((b2x - b1x) * (a1y - b1y) - (b2y - b1y) * (a1x - b1x)) / uB
    if 0 ≤ ua ∧ ua ≤ 1 then
      let ub := ((a2x - a1x) * (a1y - b1y) - (a2y - a1y) * (a1x - b1x)) / uB
      decide (0 ≤ ub ∧ ub ≤ 1)
    else false

/-- Model of `Entity.prototype.overlaps(other)` (`entities.js`), with `this`
first.  Faithful to the source, including:
* the radius pre-check `Math.sqrt(dx*dx + dy*dy) > this.radius +
  other.radius` (rendered decidably by `sqrtGt`, see
  `sqrtGt_iff_real`), and
* the translation of the other entity's edge start point, whose y
  coordinate the source computes as `px + ps * pp[i + 1]` — using
  `px`, the other entity's x position, not `py`. -/
def Entity.overlaps (this other : Entity α) : Bool :=
  let pp := other.points
  let ps := other.scale
  let px := other.x
  let py := other.y
  let dx := this.x - px
  let dy := this.y - py
  if sqrtGt (dx * dx + dy * dy) (this.radius + other.radius) then false
  else
    let il := pp.length
    let jl := this.points.length
    (List.range (il / 2)).any fun i2 =>
      let i := 2 * i2
      let a1x := px + ps * pp.getD i 0
      let a1y := px + ps * pp.getD (i + 1) 0
      let a2x := px + ps * pp.getD ((i + 2) % il) 0
      let a2y := py + ps * pp.getD ((i + 2) % il + 1) 0
      (List.range (jl / 2)).any fun j2 =>
        let j := 2 * j2
        let b1x := this.x + this.scale * this.points.getD j 0
        let b1y := this.y + this.scale * this.points.getD (j + 1) 0
        let b2x := this.x + this.scale * this.points.getD ((j + 2) % jl) 0
        let b2y := this.y + this.scale * this.points.getD ((j + 3) % jl) 0
        segmentsHit a1x a1y a2x a2y b1x b1y b2x b2y

/-- The state of a JS `Ship` object (`game.js`): an `Entity` plus the
fire cooldown and the thrust flag. -/
structure Ship (α : Type) extends Entity α where
  bulletTimer : α
  thrusting : Bool
  deriving DecidableEq

/-- Model of `Ship.prototype.updateRadius` (`game.js`): the inherited
recomputation followed by `this.radius *= 0.8` and
`this.radiusSquared = this.radius * this.radius`. -/
def Ship.updateRadius (sqrt : α → α) (s : Ship α) : Ship α :=
  let e := s.toEntity.updateRadius sqrt
  let r := e.radius * (4 / 5)
  { s with toEntity := { e with radius := r, radiusSquared := r * r } }

/-- Model of `Ship.prototype.setPoints`: ships inherit `Entity.prototype.setPoints`,
whose `this.updateRadius()` dispatches to the ship override. -/
def Ship.setPoints (sqrt : α → α) (ps : List α) (scale : Option α)
    (s : Ship α) : Ship α :=
  let s1 := { s with toEntity := { s.toEntity with points := ps } }
  let s2 := match scale with
    | some sc => { s1 with toEntity := { s1.toEntity with scale := sc } }
    | none => s1
  Ship.updateRadius sqrt s2

/-- Model of `Ship.prototype.setScale`: inherited `Entity.prototype.setScale`
with dispatch to the ship's `updateRadius` override. -/
def Ship.setScale (sqrt : α → α) (sc : α) (s : Ship α) : Ship α :=
  Ship.updateRadius sqrt { s with toEntity := { s.toEntity with scale := sc } }

/-- Model of `Ship.prototype.spawn`, restricted to its effect on the entity
fields (`game.js`): defaults for position and points, then the
inherited spawn (with ship `updateRadius` dispatch), then
`bulletTimer = 0`, `thrusting = false`. -/
def Ship.spawn (sqrt : α → α) (x y vx vy angle : Option α) (scale : Option α)
    (ps : Option (List α)) (s : Ship α) : Ship α :=
  let xv := x.getD (gameWidth / 2)
  let yv := y.getD (gameHeight / 4)
  let psv := ps.getD shipPoints
  let e1 := { s.toEntity with
    dead := false
    x := xv
    y := yv
    vx := vx.getD 0
    vy := vy.getD 0
    angle := angle.getD 0 }
  let s1 : Ship α := { s with toEntity := e1 }
  let s2 := Ship.setPoints sqrt psv (some (scale.getD e1.scale)) s1
  { s2 with bulletTimer := 0, thrusting := false }

/-- The values `Ship.prototype.fire` passes to `bullet.spawn` for the
one bullet it creates (`game.js`): muzzle position and velocity. -/
structure FiredBullet (α : Type) where
  x : α
  y : α
  vx : α
  vy : α
  deriving DecidableEq

/-- Model of `Ship.prototype.fire` (`game.js`): no-op when dead or when
`game.time < this.bulletTimer`; otherwise set
`bulletTimer = time + shipBulletTimer` and spawn one bullet 10 units
along the facing normal with velocity `bulletVelocity` along it.
`sinF`/`cosF` stand for `Math.sin`/`Math.cos` and `a2r` for
`util.angleToRadians`. -/
def Ship.fire (sinF cosF : α → α) (a2r : α) (time : α) (s : Ship α) :
    Ship α × Option (FiredBullet α) :=
  if s.dead then (s, none)
  else if time < s.bulletTimer then (s, none)
  else
    let s1 := { s with bulletTimer := time + shipBulletTimer }
    let nx := sinF (s.angle * a2r)
    let ny := -(cosF (s.angle * a2r))
    (s1, some ⟨s.x + nx * 10, s.y + ny * 10,
               nx * bulletVelocity, ny * bulletVelocity⟩)

/-- Truncation toward zero, the rounding JS uses to define the `%`
operator on numbers: `a % b = a - b * trunc(a / b)`. -/
def jsTrunc [FloorRing α] (q : α) : ℤ :=
  if q < 0 then -(⌊-q⌋) else ⌊q⌋

/-- The JS remainder operator `%` on numbers: truncated division
remainder, taking the sign of the dividend. -/
def jsRem [FloorRing α] (a b : α) : α :=
  a - b * (jsTrunc (a / b) : ℤ)

/-- Model of `Ship.prototype.turnLeft` (`game.js`):
`this.angle = (this.angle - shipTurnVelocity * dt) % 360`. -/
def Ship.turnLeft [FloorRing α] (dt : α) (s : Ship α) : Ship α :=
  { s with angle := jsRem (s.angle - shipTurnVelocity * dt) 360 }

/-- Model of `Ship.prototype.turnRight` (`game.js`):
`this.angle = (this.angle + shipTurnVelocity * dt) % 360`. -/
def Ship.turnRight [FloorRing α] (dt : α) (s : Ship α) : Ship α :=
  { s with angle := jsRem (s.angle + shipTurnVelocity * dt) 360 }

/-- The arguments `Asteroid.prototype.die` passes to
`Explosion.spawn` for the explosion it creates. -/
structure ExplosionSpawn (α : Type) where
  x : α
  y : α
  scale : α
  deriving DecidableEq

/-- The arguments `Asteroid.prototype.die` passes to
`Asteroid.spawn` for each child asteroid (angle is always 0). -/
structure ChildAsteroid (α : Type) where
  x : α
  y : α
  vx : α
  vy : α
  scale : α
  deriving DecidableEq

/-- The effects of one `Asteroid.prototype.die` call: the asteroid
marked dead, the explosion spawned at its position and scale, and the
child asteroids spawned (in order). -/
structure AsteroidDeath (α : Type) where
  asteroid : Entity α
  explosion : ExplosionSpawn α
  children : List (ChildAsteroid α)
  deriving DecidableEq

/-- Model of `Asteroid.prototype.die` (`game.js`).  `sqrtF`, `cosF`, `sinF`,
`atan2F` stand for the `Math` library functions; `rand k` is the
value of the k-th `Math.random()` call of this invocation.  The
explosion always spawns; the parent entity is marked dead
(`Entity.prototype.die`); then `scale - 1` picks the child bucket:
below the small threshold no children, otherwise two children at the
bucketed scale, headings jittered cumulatively, with velocity factor
`f = 0.4` then `f = 1 - 0.4 = 0.6` against `3 *` the parent speed. -/
def Asteroid.die (sqrtF cosF sinF : α → α) (atan2F : α → α → α)
    (rand : ℕ → α) (a : Entity α) : AsteroidDeath α :=
  let explosion : ExplosionSpawn α := ⟨a.x, a.y, a.scale⟩
  let aDead := { a with dead := true }
  let sc1 := a.scale - 1
  if sc1 < asteroidSmallScale then ⟨aDead, explosion, []⟩
  else
    let sc := if sc1 < asteroidMediumScale then asteroidSmallScale
              else asteroidMediumScale
    let vlen := sqrtF (a.vx * a.vx + a.vy * a.vy) * 3
    let f1 : α := 2 / 5
    let vrad1 := atan2F (-a.vy) a.vx + (rand 0 - 1 / 2)
    let c1 : ChildAsteroid α :=
      ⟨a.x, a.y, cosF vrad1 * vlen * f1, -(sinF vrad1) * vlen * f1, sc⟩
    let f2 := 1 - f1
    let vrad2 := vrad1 + (rand 1 - 1 / 2)
    let c2 : ChildAsteroid α :=
      ⟨a.x, a.y, cosF vrad2 * vlen * f2, -(sinF vrad2) * vlen * f2, sc⟩
    ⟨aDead, explosion, [c1, c2]⟩

/-- One slot of the entity registry (`entities.js`): the fields of an
entity that `create`/`findDeadId` read — its id, the wire tag of its
constructor (`entity.constructor.type`), and the dead flag. -/
structure Slot where
  id : ℕ
  kind : ℕ
  dead : Bool
  deriving DecidableEq

/-- The entity registry state: `exports.all` (`entities.js`).  The
JS `forId` map sends each id to the entity carrying it and is kept in
lockstep with `all`; it is modelled by `List.find?` on the id (the
theorems below prove ids are never duplicated, so the first match is
the only one). -/
structure Registry where
  all : List Slot
  deriving DecidableEq

/-- Model of `exports.findDeadId(ctor)` (`entities.js`): first entity in `all`
with the requested constructor type and `dead` set; `none` when there
is no such entity. -/
def findDeadId (kind : ℕ) (r : Registry) : Option ℕ :=
  (r.all.find? fun e => e.kind == kind && e.dead).map (·.id)

/-- Model of `exports.create(ctor, id)` (`entities.js`): with `id` omitted
(authoritative path) reuse a dead slot's id of the same kind, else
allocate `all.length`; then return the entity registered under that
id, constructing and appending a fresh (dead) one when the id is
unused.  Returns the entity and the updated registry. -/
def Registry.create (kind : ℕ) (id? : Option ℕ) (r : Registry) :
    Slot × Registry :=
  let id := match id? with
    | some i => i
    | none => (findDeadId kind r).getD r.all.length
  match r.all.find? fun e => e.id == id with
  | some e => (e, r)
  | none =>
      let e : Slot := ⟨id, kind, true⟩
      (e, ⟨r.all ++ [e]⟩)

/-- Set the dead flag of the entity with the given id: the registry
effect of `Entity.prototype.spawn` (`dead = false`) and
`Entity.prototype.die` (`dead = true`). -/
def Registry.setDead (id : ℕ) (b : Bool) (r : Registry) : Registry :=
  ⟨r.all.map fun e => if e.id == id then { e with dead := b } else e⟩

/-- The registry operations: creating an entity (with or without an
explicit id), spawning one and killing one. -/
inductive RegOp where
  | create (kind : ℕ) (id? : Option ℕ)
  | spawnId (id : ℕ)
  | dieId (id : ℕ)
  deriving DecidableEq

/-- Apply one registry operation. -/
def Registry.applyOp : RegOp → Registry → Registry
  | .create k i, r => (r.create k i).2
  | .spawnId i, r => r.setDead i false
  | .dieId i, r => r.setDead i true

/-- Apply a sequence of registry operations in order. -/
def Registry.applyOps (ops : List RegOp) (r : Registry) : Registry :=
  ops.foldl (fun r op => Registry.applyOp op r) r

/-- The empty registry (`exports.all = []`). -/
def registry0 : Registry := ⟨[]⟩

/-- State of the entity type table (`entities.js`): `exports.types`
holds the registered constructors in order (as kind keys);
`tagOf k` is the `ctor.type` field of kind `k` (`none` for the JS
`undefined`) and `allOf k` its `ctor.all` per-kind entity list
(entity ids; `none` before the field is first created). -/
structure TypeReg where
  types : List ℕ
  tagOf : ℕ → Option ℕ
  allOf : ℕ → Option (List ℕ)

/-- JS truthiness of `ctor.type`: `undefined` and `0` are falsy. -/
def jsFalsyTag : Option ℕ → Bool
  | none => true
  | some 0 => true
  | some (_ + 1) => false

/-- Model of `exports.defineType(ctor)` (`entities.js`): guarded by
`if (!ctor.type)` — JS falsiness, so both an undefined tag and the
tag `0` pass the guard — set `ctor.all = []`,
`ctor.type = types.length` and append to the type table. -/
def defineType (k : ℕ) (r : TypeReg) : TypeReg :=
  if jsFalsyTag (r.tagOf k) then
    { types := r.types ++ [k]
      tagOf := fun k2 => if k2 = k then some r.types.length else r.tagOf k2
      allOf := fun k2 => if k2 = k then some [] else r.allOf k2 }
  else r

/-- The fresh type table: no kinds registered. -/
def typeReg0 : TypeReg := ⟨[], fun _ => none, fun _ => none⟩

/-- The packet catalogue built by the `definePacket` /
`defineCustomPacket` calls at the bottom of `network.js`, in source
order; `packetIndex` is pre-incremented so indices start at 1.  Each
entry is (index, name, pack function); `jsPack` stands for
`jspack.Pack(format, values)`, returning the packed bytes.  The two
custom packets extend their fixed prefix format with one `d` per
value beyond the prefix, as in `_packPoints` / `_packSpawned`. -/
def packets (jsPack : String → List α → List ℕ) :
    List (ℕ × String × (List α → List ℕ)) :=
  [ (1, "ack", fun vs => jsPack "BLL" vs),
    (2, "ackShip", fun vs => jsPack "BLL" vs),
    (3, "connected", fun vs => jsPack "BL" vs),
    (4, "disconnected", fun vs => jsPack "BL" vs),
    (5, "buttonDown", fun vs => jsPack "BB" vs),
    (6, "buttonUp", fun vs => jsPack "BB" vs),
    (7, "entity", fun vs => jsPack "BLdddddd" vs),
    (8, "entityDied", fun vs => jsPack "BL" vs),
    (9, "entityPoints", fun vs => jsPack (String.pushn "BLL" 'd' (vs.length - 3)) vs),
    (10, "entitySpawned",
      fun vs => jsPack (String.pushn "BBLddddddL" 'd' (vs.length - 10)) vs) ]

/-- Model of `exports.packMessage(name, values)` (`network.js`): look the
packet up by name (unknown names throw), `values.unshift(packet.index)`
— mutating the caller's array — then pack the mutated array and build
the message string from the byte values.  The result carries the
message and the final state of the caller's `values` array. -/
def packMessage (jsPack : String → List α → List ℕ) (name : String)
    (values : List α) : Except String (String × List α) :=
  match (packets jsPack).find? fun p => p.2.1 == name with
  | none => .error ("Invalid packet name " ++ name)
  | some p =>
      let values2 : List α := (p.1 : α) :: values
      let bytes := p.2.2 values2
      .ok (String.mk (bytes.map Char.ofNat), values2)

/-- A bullet as seen by the collision pass (`game.js`, `collide`):
its entity state plus `bullet.ship`, the back-reference to the ship
that fired it, modelled by that ship's entity id (`none` when the
field was never set). -/
structure BulletRef (α : Type) where
  ent : Entity α
  shipRef : Option ℕ
  deriving DecidableEq

/-- One bullet's inner loop over `Ship.all` in the second phase of
`collide` (`game.js`): every live ship that is not the bullet's own
shooter and that overlaps the bullet is killed.  The JS loop walks
ships by descending index, but each iteration touches only the
visited ship's dead flag (and the bullet's), and its condition reads
only that ship's own fields and the bullet's position fields, so the
loop equals this per-ship map. -/
def shipsAfterBullet (b : BulletRef α) (ships : List (Entity α)) :
    List (Entity α) :=
  ships.map fun s =>
    if !s.dead && !(b.shipRef == some s.id) && s.overlaps b.ent then
      { s with dead := true }
    else s

/-- Whether the inner loop of `collide` kills the bullet itself:
`bullet.die()` runs exactly when some ship passes the test.  Note the
JS inner loop does not re-check `bullet.dead`, so a bullet that
already died on one ship still kills later ships of the same sweep —
reproduced here by computing `shipsAfterBullet` over the whole ship
list regardless. -/
def bulletHitsAny (b : BulletRef α) (ships : List (Entity α)) : Bool :=
  ships.any fun s =>
    !s.dead && !(b.shipRef == some s.id) && s.overlaps b.ent

/-- The bullets-versus-ships phase of `collide` (`game.js`, second
`while` loop): bullets are visited from the highest index down
(here: the list tail is processed first), dead bullets are skipped,
and each live bullet runs its inner ship sweep.  Ship kills by
bullets happen only in this phase (the first phase kills ships only
through `asteroid.overlaps(ship)`).  `die()` side effects that do
not touch the dead flags of these lists (debris/explosion spawns,
player detach, `timeLeft` reset) are omitted. -/
def collideBulletsShips :
    List (BulletRef α) → List (Entity α) → List (BulletRef α) × List (Entity α)
  | [], ships => ([], ships)
  | b :: rest, ships =>
      let p := collideBulletsShips rest ships
      if b.ent.dead then (b :: p.1, p.2)
      else
        let ships3 := shipsAfterBullet b p.2
        let b2 := if bulletHitsAny b p.2 then
            { b with ent := { b.ent with dead := true } }
          else b
        (b2 :: p.1, ships3)

/-! ## Spec-side definitions and concrete instances for the claims -/

/-- Counterexample entity for claim C1: an axis-aligned rectangle of
half-extents (3,4) centred at the origin.  Its cached bounding values
are consistent: `radiusSquared = max(9+16) = 25`, `radius = 5`. -/
def cexA : Entity ℚ :=
  ⟨false, 0, 0, 0, 0, 0, 0, 1, [-3, -4, 3, -4, 3, 4, -3, 4], 5, 25⟩

/-- Counterexample entity for claim C1: a degenerate single-point
polygon `[0,0]` at position (0, 9/2), radius 0 (consistent cache).
The centre distance to `cexA` is 9/2 ≤ 5, so the radius pre-check
passes in both directions. -/
def cexB : Entity ℚ :=
  ⟨false, 1, 0, 9 / 2, 0, 0, 0, 1, [0, 0], 0, 0⟩

/-- The type table after registering two fresh kinds (0 then 1), as
the game module does for Asteroid, Bullet, ... -/
def twoKindsReg : TypeReg := defineType 1 (defineType 0 typeReg0)

/-- A concrete live ship used as witness input for claims about ship
operations: the default spawn state (centre of the world, default
ship polygon, radius `12.5 * 0.8 = 10`, zero cooldown). -/
def wShip : Ship ℚ :=
  ⟨⟨false, 2, 640, 180, 0, 0, 0, 1, shipPoints, 10, 100⟩, 0, false⟩

/-- The ids currently held by the registry's entities, in slot
order. -/
def Registry.ids (r : Registry) : List ℕ := r.all.map Slot.id

/-- The ids of the currently-alive entities. -/
def Registry.aliveIds (r : Registry) : List ℕ :=
  (r.all.filter fun e => !e.dead).map Slot.id

/-- A registry with one live and two dead slots, used as the concrete
witness input for claim C8. -/
def wReg : Registry := ⟨[⟨0, 5, false⟩, ⟨1, 5, true⟩, ⟨2, 3, true⟩]⟩

/-- Fold for the radius value claim C2 prescribes: running maximum
of `sqrt((scale*x)^2 + (scale*y)^2)` over the flattened points. -/
def specRadiusAux (sqrt : α → α) (s : α) : α → List α → α
  | m, px :: py :: rest =>
      specRadiusAux sqrt s
        (max m (sqrt ((s * px) * (s * px) + (s * py) * (s * py)))) rest
  | m, [_] => m
  | m, [] => m

/-- The radius value the specification prescribes (claim C2 wording):
the maximum over the points (x, y) of
`sqrt((scale*x)^2 + (scale*y)^2)` (0 when there are no points).  This
is the spec-side definition, compared below against the value
`updateRadius` actually stores. -/
def specRadius (sqrt : α → α) (s : α) (ps : List α) : α :=
  specRadiusAux sqrt s 0 ps

/-- The invariant claim C2 asserts for every entity kind: the cached
radius is the maximum over the points of
`sqrt((scale*x)^2 + (scale*y)^2)`, and `radiusSquared` is its
square. -/
def radiusSpecInv (e : Entity ℝ) : Prop :=
  e.radius = specRadius Real.sqrt e.scale e.points ∧
  e.radiusSquared = e.radius ^ 2

/-- The invariant that actually holds for ships: the cached radius is
0.8 times the spec maximum (`Ship.prototype.updateRadius` shrinks it
for collision forgiveness), with `radiusSquared` its square. -/
def shipRadiusSpecInv (sh : Ship ℝ) : Prop :=
  sh.radius = (4 / 5) * specRadius Real.sqrt sh.scale sh.points ∧
  sh.radiusSquared = sh.radius ^ 2

/-- A ship whose geometry is the single point (3, 4) at scale 1: the
geometric maximum distance is 5, but the stored ship radius is 4. -/
def cexShip : Ship ℝ :=
  ⟨⟨true, 3, 0, 0, 0, 0, 0, 1, [3, 4], 5, 25⟩, 0, false⟩

/-- A blank entity used as the witness input for claim C2. -/
def blankEnt : Entity ℝ := ⟨true, 0, 0, 0, 0, 0, 0, 1, [], 0, 0⟩

/-- The speed (euclidean norm) of a velocity vector, as
`Math.sqrt(vx*vx + vy*vy)` computes it. -/
def speedOf (sqrtF : ℝ → ℝ) (vx vy : ℝ) : ℝ := sqrtF (vx * vx + vy * vy)

/-- A live large asteroid (scale 64) with velocity (3, 4), used as
witness input for claim C5. -/
def wAstL : Entity ℝ := ⟨false, 7, 100, 200, 3, 4, 0, 64, [1, 0, 0, 1], 64, 4096⟩

/-- The same asteroid at the small scale (12). -/
def wAstS : Entity ℝ := ⟨false, 8, 100, 200, 3, 4, 0, 12, [1, 0, 0, 1], 12, 144⟩

/-- Lemma: `sqrtGt` agrees with the `Math.sqrt` comparison it encodes. -/
theorem sqrtGt_iff_real (s r : ℝ) :
    sqrtGt s r = true ↔ Real.sqrt s > r := by
  simp only [sqrtGt, Bool.or_eq_true, decide_eq_true_eq]
  constructor
  · rintro (hr | hrs)
    · exact lt_of_lt_of_le hr (Real.sqrt_nonneg s)
    · rcases lt_or_le r 0 with h | h
      · exact lt_of_lt_of_le h (Real.sqrt_nonneg s)
      · have := Real.lt_sqrt h (y := s)
        exact this.mpr (by nlinarith)
  · intro h
    rcases lt_or_le r 0 with h0 | h0
    · exact Or.inl h0
    · right
      have := (Real.lt_sqrt h0 (y := s)).mp h
      nlinarith

/-! ## Claim C1 — symmetry of `Entity.overlaps` -/

/-- Evaluation of the forward direction of the C1 counterexample. -/
theorem cexA_overlaps_cexB : Entity.overlaps cexA cexB = true := by
  norm_num [Entity.overlaps, sqrtGt, segmentsHit, cexA, cexB, List.range_succ]

/-- Evaluation of the reverse direction of the C1 counterexample. -/
theorem cexB_overlaps_cexA : Entity.overlaps cexB cexA = false := by
  norm_num [Entity.overlaps, sqrtGt, segmentsHit, cexA, cexB, List.range_succ]

/-- Claim C1 is false of the code: `Entity.overlaps` is not
symmetric.  `cexA.overlaps cexB` is true but `cexB.overlaps cexA` is
false.  Cause: `entities.js` computes the y coordinate of each edge
start of the `other` entity as `a1y = px + ps * pp[i + 1]` — from the
other entity's x position `px` instead of `py` (the neighbouring
`a2y` correctly uses `py`).  The point entity `cexB` therefore
contributes a phantom vertical segment from (0,0) to (0,9/2) which
crosses the rectangle's top edge, while in the swapped call `cexB`'s
own segments are all zero-length (`uB = 0`) and can never
intersect. -/
theorem overlaps_not_symmetric :
    Entity.overlaps cexA cexB = true ∧ Entity.overlaps cexB cexA = false :=
  ⟨cexA_overlaps_cexB, cexB_overlaps_cexA⟩

/-! ## Claim C3 — `defineType` registration -/

/-- Claim C3 fails on the code for the first-registered kind:
`defineType` does assign tags in registration order (kind 0 gets tag
0, kind 1 gets tag 1), but re-registering the kind with tag 0 is not
a no-op.  The guard `if (!ctor.type)` uses JS falsiness, and the tag
`0` is falsy, so a second `defineType` on kind 0 reassigns its tag to
the current table length (2), resets its per-kind entity list to
`[]`, and appends a duplicate entry to the type table. -/
theorem defineType_tag0_not_idempotent :
    (twoKindsReg.tagOf 0 = some 0 ∧ twoKindsReg.tagOf 1 = some 1 ∧
     twoKindsReg.types = [0, 1]) ∧
    ((defineType 0 twoKindsReg).tagOf 0 = some 2 ∧
     (defineType 0 twoKindsReg).types = [0, 1, 0] ∧
     (defineType 0 twoKindsReg).allOf 0 = some []) ∧
    (defineType 1 twoKindsReg = twoKindsReg) := by
  constructor
  · exact ⟨rfl, rfl, rfl⟩
  constructor
  · exact ⟨rfl, rfl, rfl⟩
  · rfl

/-! ## Claim C4 — toroidal wraparound in `Entity.update` -/

/-- Claim C4: for a live entity, `update` first adds `velocity * dt`
to the position and then wraps each axis against the entity's current
radius: a coordinate strictly below `-radius` is set exactly to
`worldSize + radius` of that axis (width for x, height for y), one
strictly above `worldSize + radius` is set exactly to `-radius`, and
otherwise it is left at the integrated value.  In particular an
entity at `x = -radius - eps` (`eps > 0`) with `vx < 0` lands at
exactly `gameWidth + radius` after one update. -/
theorem update_toroidal_wrap (e : Entity ℚ) (dt eps : ℚ)
    (hlive : e.dead = false) :
    ((Entity.update dt e).x =
       (if e.x + e.vx * dt < -e.radius then gameWidth + e.radius
        else if e.x + e.vx * dt > gameWidth + e.radius then -e.radius
        else e.x + e.vx * dt) ∧
     (Entity.update dt e).y =
       (if e.y + e.vy * dt < -e.radius then gameHeight + e.radius
        else if e.y + e.vy * dt > gameHeight + e.radius then -e.radius
        else e.y + e.vy * dt)) ∧
    (e.x = -e.radius - eps → 0 < eps → e.vx < 0 → 0 ≤ dt →
      (Entity.update dt e).x = gameWidth + e.radius) := by
  have hchar : (Entity.update dt e).x =
       (if e.x + e.vx * dt < -e.radius then gameWidth + e.radius
        else if e.x + e.vx * dt > gameWidth + e.radius then -e.radius
        else e.x + e.vx * dt) ∧
      (Entity.update dt e).y =
       (if e.y + e.vy * dt < -e.radius then gameHeight + e.radius
        else if e.y + e.vy * dt > gameHeight + e.radius then -e.radius
        else e.y + e.vy * dt) := by
    simp only [Entity.update, hlive, Bool.false_eq_true, if_false]
    constructor <;> split_ifs <;>
      first
        | rfl
        | (exfalso; simp only [gameWidth, gameHeight] at *; linarith)
  refine ⟨hchar, fun hx heps hvx hdt => ?_⟩
  have hvd : e.vx * dt ≤ 0 := mul_nonpos_iff.mpr (Or.inr ⟨hvx.le, hdt⟩)
  have hcond : e.x + e.vx * dt < -e.radius := by rw [hx]; linarith
  rw [hchar.1, if_pos hcond]

/-- Witness for claim C4 at a concrete live entity: radius 5 at
`x = -6 = -radius - 1`, `vx = -8`, `dt = 1`; one update lands it at
exactly `gameWidth + radius = 1285`. -/
theorem update_toroidal_wrap_witness :
    (⟨false, 0, -6, 10, -8, 0, 0, 1, [3, 4], 5, 25⟩ : Entity ℚ).dead = false ∧
    (Entity.update 1 ⟨false, 0, -6, 10, -8, 0, 0, 1, [3, 4], 5, 25⟩).x =
      gameWidth + (5 : ℚ) :=
  ⟨rfl,
   (update_toroidal_wrap ⟨false, 0, -6, 10, -8, 0, 0, 1, [3, 4], 5, 25⟩ 1 1
      rfl).2 (by norm_num) (by norm_num) (by norm_num) (by norm_num)⟩

/-! ## Claim C6 — ship fire cooldown -/

/-- Claim C6: `Ship.fire` is a no-op when the ship is dead or when
the game time is strictly before `bulletTimer`; otherwise it sets
`bulletTimer = time + shipBulletTimer` (0.2 s) and spawns exactly one
bullet.  Consequently a second `fire` at the same game time spawns
nothing, and a `fire` once `shipBulletTimer` seconds have elapsed
spawns a second bullet. -/
theorem fire_cooldown (sinF cosF : ℚ → ℚ) (a2r time : ℚ) (s : Ship ℚ) :
    (s.dead = true → Ship.fire sinF cosF a2r time s = (s, none)) ∧
    (time < s.bulletTimer → Ship.fire sinF cosF a2r time s = (s, none)) ∧
    (s.dead = false → ¬time < s.bulletTimer →
      ((Ship.fire sinF cosF a2r time s).1.bulletTimer =
         time + shipBulletTimer ∧
       (Ship.fire sinF cosF a2r time s).2.isSome = true ∧
       (Ship.fire sinF cosF a2r time
          (Ship.fire sinF cosF a2r time s).1).2 = none ∧
       (Ship.fire sinF cosF a2r (time + shipBulletTimer)
          (Ship.fire sinF cosF a2r time s).1).2.isSome = true)) := by
  refine ⟨fun hd => ?_, fun ht => ?_, fun hd ht => ?_⟩
  · simp [Ship.fire, hd]
  · simp [Ship.fire, ht]
  · have h1 : Ship.fire sinF cosF a2r time s =
        ({ s with bulletTimer := time + shipBulletTimer },
         some ⟨s.x + sinF (s.angle * a2r) * 10,
               s.y + -(cosF (s.angle * a2r)) * 10,
               sinF (s.angle * a2r) * bulletVelocity,
               -(cosF (s.angle * a2r)) * bulletVelocity⟩) := by
      simp [Ship.fire, hd, ht]
    refine ⟨by simp [h1], by simp [h1], ?_, ?_⟩
    · rw [h1]
      have hlt : time < time + shipBulletTimer := by
        norm_num [shipBulletTimer]
      simp [Ship.fire, hd, hlt]
    · rw [h1]
      have hnlt : ¬time + shipBulletTimer < time + shipBulletTimer :=
        lt_irrefl _
      simp [Ship.fire, hd, hnlt]

/-- Witness for claim C6: firing `wShip` at time 3 produces one
bullet, re-firing at the same time produces none, and after the
cooldown a second bullet comes. -/
theorem fire_cooldown_witness :
    wShip.dead = false ∧ ¬(3 : ℚ) < wShip.bulletTimer ∧
    ((Ship.fire id id 1 3 wShip).1.bulletTimer = 3 + shipBulletTimer ∧
     (Ship.fire id id 1 3 wShip).2.isSome = true ∧
     (Ship.fire id id 1 3 (Ship.fire id id 1 3 wShip).1).2 = none ∧
     (Ship.fire id id 1 (3 + shipBulletTimer)
        (Ship.fire id id 1 3 wShip).1).2.isSome = true) :=
  ⟨rfl, by norm_num [wShip],
   (fire_cooldown id id 1 3 wShip).2.2 rfl (by norm_num [wShip])⟩

/-! ## Claim C9 — turn angle wrapping -/

/-- Lemma: `jsRem a 360` differs from `a` by an integer multiple of 360. -/
theorem jsRem_sub_int (a : ℚ) : ∃ k : ℤ, jsRem a 360 = a - 360 * k :=
  ⟨jsTrunc (a / 360), by unfold jsRem; ring⟩

/-- Lemma: `jsRem _ 360` always lands strictly between -360 and 360. -/
theorem jsRem_range (a : ℚ) : -360 < jsRem a 360 ∧ jsRem a 360 < 360 := by
  unfold jsRem jsTrunc
  split_ifs with h
  · have h1 : (⌊-(a / 360)⌋ : ℚ) ≤ -(a / 360) := Int.floor_le _
    have h2 : -(a / 360) - 1 < (⌊-(a / 360)⌋ : ℚ) := Int.sub_one_lt_floor _
    push_cast
    constructor <;> nlinarith
  · have h1 : (⌊a / 360⌋ : ℚ) ≤ a / 360 := Int.floor_le _
    have h2 : a / 360 - 1 < (⌊a / 360⌋ : ℚ) := Int.sub_one_lt_floor _
    constructor <;> nlinarith

/-- For a nonnegative dividend, `jsRem _ 360` lands in `[0, 360)`. -/
theorem jsRem_nonneg_lt (a : ℚ) (ha : 0 ≤ a) :
    0 ≤ jsRem a 360 ∧ jsRem a 360 < 360 := by
  unfold jsRem jsTrunc
  have hq : ¬a / 360 < 0 := not_lt.mpr (div_nonneg ha (by norm_num))
  rw [if_neg hq]
  have h1 : (⌊a / 360⌋ : ℚ) ≤ a / 360 := Int.floor_le _
  have h2 : a / 360 - 1 < (⌊a / 360⌋ : ℚ) := Int.sub_one_lt_floor _
  constructor <;> nlinarith

/-- Amended claim C9: `turnRight` stores the JS truncated remainder
of `old + shipTurnVelocity * dt` by 360 (and `turnLeft` of
`old - shipTurnVelocity * dt`): the stored angle differs from the
unreduced value by an integer multiple of 360 and lies strictly
between -360 and 360; it lies in `[0, 360)` whenever the unreduced
value is nonnegative, but not in general (the JS `%` keeps the
dividend's sign, so `turnLeft` from small angles goes negative). -/
theorem turn_wraps_js_remainder (s : Ship ℚ) (dt : ℚ) :
    ((Ship.turnRight dt s).angle =
       jsRem (s.angle + shipTurnVelocity * dt) 360 ∧
     (Ship.turnLeft dt s).angle =
       jsRem (s.angle - shipTurnVelocity * dt) 360) ∧
    (∃ k : ℤ, (Ship.turnRight dt s).angle =
       s.angle + shipTurnVelocity * dt - 360 * k) ∧
    (∃ k : ℤ, (Ship.turnLeft dt s).angle =
       s.angle - shipTurnVelocity * dt - 360 * k) ∧
    (-360 < (Ship.turnRight dt s).angle ∧
     (Ship.turnRight dt s).angle < 360 ∧
     -360 < (Ship.turnLeft dt s).angle ∧
     (Ship.turnLeft dt s).angle < 360) ∧
    (0 ≤ s.angle + shipTurnVelocity * dt →
      0 ≤ (Ship.turnRight dt s).angle ∧
      (Ship.turnRight dt s).angle < 360) := by
  have hr : (Ship.turnRight dt s).angle =
      jsRem (s.angle + shipTurnVelocity * dt) 360 := rfl
  have hl : (Ship.turnLeft dt s).angle =
      jsRem (s.angle - shipTurnVelocity * dt) 360 := rfl
  refine ⟨⟨hr, hl⟩, ?_, ?_, ?_, ?_⟩
  · rw [hr]; exact jsRem_sub_int _
  · rw [hl]; exact jsRem_sub_int _
  · rw [hr, hl]
    exact ⟨(jsRem_range _).1, (jsRem_range _).2,
           (jsRem_range _).1, (jsRem_range _).2⟩
  · intro hpos
    rw [hr]
    exact jsRem_nonneg_lt _ hpos

/-- Witness for the amended claim C9 at `wShip` (angle 0), `dt = 1`:
the unreduced right-turn value 256 is nonnegative, so the stored
angle lies in `[0, 360)`. -/
theorem turn_wraps_js_remainder_witness :
    (0 : ℚ) ≤ wShip.angle + shipTurnVelocity * 1 ∧
    (0 ≤ (Ship.turnRight 1 wShip).angle ∧
     (Ship.turnRight 1 wShip).angle < 360) :=
  ⟨by norm_num [wShip, shipTurnVelocity],
   (turn_wraps_js_remainder wShip 1).2.2.2.2
     (by norm_num [wShip, shipTurnVelocity])⟩

/-- Claim C9 is false as stated: turning left for one second from
angle 0 stores `(0 - 256) % 360 = -256` (JS remainder keeps the
dividend's sign), which is negative — not the mod-360 reduction 104
and not in `[0, 360)`. -/
theorem turnLeft_angle_negative :
    (Ship.turnLeft 1 wShip).angle = -256 ∧
    ¬0 ≤ (Ship.turnLeft 1 wShip).angle ∧
    (Ship.turnLeft 1 wShip).angle ≠ 104 := by
  have h : (Ship.turnLeft 1 wShip).angle = -256 := by
    show jsRem (wShip.angle - shipTurnVelocity * 1) 360 = -256
    have ha : wShip.angle - shipTurnVelocity * 1 = (-256 : ℚ) := by
      norm_num [wShip, shipTurnVelocity]
    rw [ha]
    unfold jsRem jsTrunc
    have hlt : (-256 : ℚ) / 360 < 0 := by norm_num
    rw [if_pos hlt]
    have hfl : ⌊-((-256 : ℚ) / 360)⌋ = 0 := by
      rw [Int.floor_eq_zero_iff]
      constructor <;> norm_num
    rw [hfl]
    norm_num
  exact ⟨h, by rw [h]; norm_num, by rw [h]; norm_num⟩

/-! ## Claim C10 — `packMessage` mutates its argument array -/

/-- Claim C10: for every defined packet name, `packMessage` prepends
the packet's numeric index to the caller's `values` array (the JS
`values.unshift(packet.index)` mutates the array in place, growing
it by exactly one, the original fields sitting at positions 1 and
up), and the returned encoded message is built from that mutated
array by the packet's pack function. -/
theorem packMessage_unshifts_index (jsPack : String → List ℚ → List ℕ)
    (name : String) (values : List ℚ) (msg : String) (values2 : List ℚ)
    (h : packMessage jsPack name values = .ok (msg, values2)) :
    ∃ idx packFn,
      (idx, name, packFn) ∈ packets jsPack ∧
      values2 = (idx : ℚ) :: values ∧
      values2.length = values.length + 1 ∧
      values2.getD 0 0 = (idx : ℚ) ∧
      (∀ i, values2.getD (i + 1) 0 = values.getD i 0) ∧
      msg = String.mk ((packFn values2).map Char.ofNat) := by
  unfold packMessage at h
  cases hf : (packets jsPack).find? fun p => p.2.1 == name with
  | none => rw [hf] at h; cases h
  | some p =>
      obtain ⟨idx, nm, packFn⟩ := p
      rw [hf] at h
      simp only [Except.ok.injEq, Prod.mk.injEq] at h
      obtain ⟨hm, hv⟩ := h
      have hmem := List.mem_of_find?_eq_some hf
      have hpred := List.find?_some hf
      have hname : nm = name := by simpa using hpred
      subst hname
      refine ⟨idx, packFn, hmem, hv.symm, ?_, ?_, ?_, ?_⟩
      · rw [← hv]; rfl
      · rw [← hv]; rfl
      · intro i; rw [← hv]; rfl
      · rw [← hm, hv]

/-- Witness for claim C10: packing an `entity` message with payload
`[1, 2]` yields the mutated array `[7, 1, 2]` (index 7 prepended). -/
theorem packMessage_unshifts_index_witness :
    ∃ idx packFn,
      (idx, "entity", packFn) ∈ packets (fun _ _ => ([] : List ℕ)) ∧
      ([(7 : ℚ), 1, 2] : List ℚ) = (idx : ℚ) :: [1, 2] ∧
      ([(7 : ℚ), 1, 2] : List ℚ).length = ([1, 2] : List ℚ).length + 1 ∧
      ([(7 : ℚ), 1, 2] : List ℚ).getD 0 0 = (idx : ℚ) ∧
      (∀ i, ([(7 : ℚ), 1, 2] : List ℚ).getD (i + 1) 0 =
        ([1, 2] : List ℚ).getD i 0) ∧
      "" = String.mk ((packFn [(7 : ℚ), 1, 2]).map Char.ofNat) :=
  packMessage_unshifts_index (fun _ _ => []) "entity" [1, 2] "" [7, 1, 2] rfl

/-! ## Claim C8 — id reuse and uniqueness in the registry -/

/-- Lemma: `setDead` never changes any id. -/
theorem Registry.ids_setDead (id : ℕ) (b : Bool) (r : Registry) :
    (r.setDead id b).ids = r.ids := by
  unfold Registry.ids Registry.setDead
  simp only [List.map_map]
  apply List.map_congr_left
  intro e _
  by_cases h : e.id = id <;> simp [h]

/-- Lemma: `create` preserves distinctness of registry ids: it appends a
slot only when no existing slot carries the chosen id. -/
theorem Registry.ids_nodup_create (k : ℕ) (i? : Option ℕ) (r : Registry)
    (h : r.ids.Nodup) : ((r.create k i?).2).ids.Nodup := by
  unfold Registry.create
  dsimp only
  generalize (match i? with
    | some i => i
    | none => (findDeadId k r).getD r.all.length) = idv
  split
  · exact h
  next heq =>
    show (List.map Slot.id (r.all ++ [⟨idv, k, true⟩])).Nodup
    rw [List.map_append]
    rw [List.nodup_append]
    refine ⟨h, List.nodup_singleton _, ?_⟩
    intro a ha hb
    simp only [List.map_cons, List.map_nil, List.mem_singleton] at hb
    subst hb
    simp only [List.mem_map] at ha
    obtain ⟨e, he, hid⟩ := ha
    have hne := List.find?_eq_none.mp heq e he
    simp only [beq_iff_eq] at hne
    exact hne hid

/-- Every registry operation preserves distinctness of ids. -/
theorem Registry.ids_nodup_applyOp (op : RegOp) (r : Registry)
    (h : r.ids.Nodup) : (Registry.applyOp op r).ids.Nodup := by
  cases op with
  | create k i? => exact Registry.ids_nodup_create k i? r h
  | spawnId i => rw [Registry.applyOp, Registry.ids_setDead]; exact h
  | dieId i => rw [Registry.applyOp, Registry.ids_setDead]; exact h

/-- Distinctness of ids is preserved along any operation sequence. -/
theorem Registry.ids_nodup_applyOps (ops : List RegOp) (r : Registry)
    (h : r.ids.Nodup) : (Registry.applyOps ops r).ids.Nodup := by
  induction ops generalizing r with
  | nil => exact h
  | cons op rest ih =>
      exact ih _ (Registry.ids_nodup_applyOp op r h)

/-- Alive ids are a sublist of all ids. -/
theorem Registry.aliveIds_sublist (r : Registry) :
    r.aliveIds.Sublist r.ids :=
  (List.filter_sublist r.all).map Slot.id

/-- Claim C8: on the authoritative (no explicit id) path, when a dead
entity of the requested kind exists, `create` returns an entity
carrying one of those dead entities' ids and allocates no new slot
(the registry is unchanged); and across any sequence of registry
operations from the empty registry, all slot ids — in particular the
ids of simultaneously-alive entities — are pairwise distinct. -/
theorem create_reuses_dead_id_and_ids_unique :
    (∀ (r : Registry) (k : ℕ),
      (∃ e ∈ r.all, e.kind = k ∧ e.dead = true) →
      (∃ e0 ∈ r.all, e0.kind = k ∧ e0.dead = true ∧
        (Registry.create k none r).1.id = e0.id) ∧
      (Registry.create k none r).2 = r) ∧
    (∀ ops : List RegOp,
      (Registry.applyOps ops registry0).ids.Nodup ∧
      (Registry.applyOps ops registry0).aliveIds.Nodup) := by
  constructor
  · intro r k h
    cases hf : r.all.find? fun e => e.kind == k && e.dead with
    | none =>
        obtain ⟨e, he, hk, hd⟩ := h
        have := List.find?_eq_none.mp hf e he
        rw [hk, hd] at this
        simp at this
    | some e0 =>
        have he0 := List.mem_of_find?_eq_some hf
        have hp := List.find?_some hf
        simp only [Bool.and_eq_true, beq_iff_eq] at hp
        have hid : findDeadId k r = some e0.id := by
          unfold findDeadId; rw [hf]; rfl
        constructor
        · refine ⟨e0, he0, hp.1, hp.2, ?_⟩
          unfold Registry.create
          rw [hid]
          simp only [Option.getD_some]
          split
          next e1 heq =>
            have := List.find?_some heq
            simpa using this
          next => rfl
        · unfold Registry.create
          rw [hid]
          simp only [Option.getD_some]
          split
          next e1 heq => rfl
          next heq =>
            have := List.find?_eq_none.mp heq e0 he0
            simp at this
  · intro ops
    have hids : (Registry.applyOps ops registry0).ids.Nodup :=
      Registry.ids_nodup_applyOps ops registry0 (by simp [Registry.ids, registry0])
    exact ⟨hids, hids.sublist (Registry.aliveIds_sublist _)⟩

/-- Witness for claim C8: `wReg` holds a dead entity of kind 5, the
no-id `create` for kind 5 returns an entity with a dead kind-5 slot's
id, and a concrete operation sequence from the empty registry keeps
ids distinct. -/
theorem create_reuses_dead_id_and_ids_unique_witness :
    (∃ e ∈ wReg.all, e.kind = 5 ∧ e.dead = true) ∧
    ((∃ e0 ∈ wReg.all, e0.kind = 5 ∧ e0.dead = true ∧
        (Registry.create 5 none wReg).1.id = e0.id) ∧
      (Registry.create 5 none wReg).2 = wReg) ∧
    ((Registry.applyOps [RegOp.create 4 none, RegOp.spawnId 0,
        RegOp.create 4 none, RegOp.dieId 0] registry0).ids.Nodup ∧
     (Registry.applyOps [RegOp.create 4 none, RegOp.spawnId 0,
        RegOp.create 4 none, RegOp.dieId 0] registry0).aliveIds.Nodup) :=
  ⟨⟨⟨1, 5, true⟩, by simp [wReg], rfl, rfl⟩,
   create_reuses_dead_id_and_ids_unique.1 wReg 5
     ⟨⟨1, 5, true⟩, by simp [wReg], rfl, rfl⟩,
   create_reuses_dead_id_and_ids_unique.2 _⟩

/-! ## Claim C7 — a bullet never kills its own ship -/

/-- The ship list of the bullets-versus-ships phase keeps its
length. -/
theorem collideBulletsShips_length (bs : List (BulletRef ℚ))
    (ss : List (Entity ℚ)) :
    (collideBulletsShips bs ss).2.length = ss.length := by
  induction bs with
  | nil => rfl
  | cons b rest ih =>
      simp only [collideBulletsShips]
      split_ifs <;> simp [shipsAfterBullet, ih]

/-- The ship-list component of one `collideBulletsShips` step. -/
theorem collideBulletsShips_cons_snd (b : BulletRef ℚ)
    (rest : List (BulletRef ℚ)) (ss : List (Entity ℚ)) :
    (collideBulletsShips (b :: rest) ss).2 =
      if b.ent.dead then (collideBulletsShips rest ss).2
      else shipsAfterBullet b (collideBulletsShips rest ss).2 := by
  simp only [collideBulletsShips]
  split_ifs <;> rfl

/-- Each slot of the phase's resulting ship list is the original
entity, changed at most in its dead flag. -/
theorem collideBulletsShips_entry (bs : List (BulletRef ℚ))
    (ss : List (Entity ℚ)) (k : ℕ) :
    (collideBulletsShips bs ss).2[k]? = ss[k]? ∨
    ∃ s, ss[k]? = some s ∧
      (collideBulletsShips bs ss).2[k]? = some { s with dead := true } := by
  induction bs with
  | nil => left; rfl
  | cons b rest ih =>
      rw [collideBulletsShips_cons_snd]
      split_ifs with hb
      · exact ih
      · rw [shipsAfterBullet, List.getElem?_map]
        rcases ih with hsame | ⟨s, hs, hkill⟩
        · rw [hsame]
          cases hss : ss[k]? with
          | none => left; rfl
          | some s =>
              simp only [Option.map_some']
              split_ifs with hc
              · right; exact ⟨s, rfl, rfl⟩
              · left; rfl
        · rw [hkill]
          right
          refine ⟨s, hs, ?_⟩
          simp only [Option.map_some']
          split_ifs with hc
          · rfl
          · rfl

/-- Claim C7: in the bullets-versus-ships phase of `collide`, a ship
that was alive going in and is dead coming out was overlapped by some
live bullet whose `ship` back-reference is not that ship — the loop
skips the pair `bullet.ship === ship`, so a ship's own just-fired
bullet never kills it, whatever the geometry. -/
theorem bullet_never_kills_own_ship (bullets : List (BulletRef ℚ))
    (ships : List (Entity ℚ)) (k : ℕ) (s : Entity ℚ)
    (hs : ships[k]? = some s) (halive : s.dead = false)
    (hdead : ∃ s2, (collideBulletsShips bullets ships).2[k]? = some s2 ∧
      s2.dead = true) :
    ∃ b ∈ bullets, b.ent.dead = false ∧ b.shipRef ≠ some s.id ∧
      s.overlaps b.ent = true := by
  induction bullets with
  | nil =>
      obtain ⟨s2, h2, hd2⟩ := hdead
      simp only [collideBulletsShips] at h2
      rw [hs] at h2
      cases h2
      rw [halive] at hd2
      cases hd2
  | cons b rest ih =>
      obtain ⟨s2, h2, hd2⟩ := hdead
      rw [collideBulletsShips_cons_snd] at h2
      split_ifs at h2 with hb
      · obtain ⟨b2, hb2, hrest⟩ := ih ⟨s2, h2, hd2⟩
        exact ⟨b2, List.mem_cons_of_mem b hb2, hrest⟩
      · have hbf : b.ent.dead = false := by simpa using hb
        rw [shipsAfterBullet, List.getElem?_map] at h2
        rcases collideBulletsShips_entry rest ships k with hsame | ⟨s3, hs3, hkill⟩
        · rw [hsame, hs] at h2
          simp only [Option.map_some', Option.some.injEq] at h2
          split_ifs at h2 with hc
          · simp only [Bool.and_eq_true, Bool.not_eq_true',
              beq_eq_false_iff_ne] at hc
            exact ⟨b, List.mem_cons_self b rest, hbf, hc.1.2, hc.2⟩
          · rw [← h2, halive] at hd2
            cases hd2
        · have hss3 : s3 = s := by rw [hs] at hs3; cases hs3; rfl
          subst hss3
          obtain ⟨b2, hb2, hrest⟩ := ih ⟨{ s3 with dead := true }, hkill, rfl⟩
          exact ⟨b2, List.mem_cons_of_mem b hb2, hrest⟩

/-- Witness for claim C7: a single ship (the rectangle `cexA`, id 0)
against a single live bullet fired by some other ship (id 99): the
pass kills the ship, and the killer is a live, non-own, overlapping
bullet. -/
theorem bullet_never_kills_own_ship_witness :
    ([cexA] : List (Entity ℚ))[0]? = some cexA ∧ cexA.dead = false ∧
    (∃ s2, (collideBulletsShips [⟨cexB, some 99⟩] [cexA]).2[0]? = some s2 ∧
      s2.dead = true) ∧
    (∃ b ∈ ([⟨cexB, some 99⟩] : List (BulletRef ℚ)), b.ent.dead = false ∧
      b.shipRef ≠ some cexA.id ∧ cexA.overlaps b.ent = true) := by
  have hcond : (!cexA.dead && !((⟨cexB, some 99⟩ : BulletRef ℚ).shipRef ==
      some cexA.id) && cexA.overlaps (⟨cexB, some 99⟩ : BulletRef ℚ).ent) =
      true := by
    rw [show (⟨cexB, some 99⟩ : BulletRef ℚ).ent = cexB from rfl,
      cexA_overlaps_cexB]
    rfl
  have hkill : (collideBulletsShips [⟨cexB, some 99⟩] [cexA]).2[0]? =
      some { cexA with dead := true } := by
    rw [collideBulletsShips_cons_snd, if_neg (by simp [cexB])]
    show (shipsAfterBullet _ [cexA])[0]? = _
    rw [shipsAfterBullet]
    simp only [List.map_cons, List.map_nil]
    rw [if_pos hcond]
    rfl
  refine ⟨rfl, rfl, ⟨{ cexA with dead := true }, hkill, rfl⟩, ?_⟩
  exact bullet_never_kills_own_ship [⟨cexB, some 99⟩] [cexA] 0 cexA rfl rfl
    ⟨{ cexA with dead := true }, hkill, rfl⟩

/-! ## Claim C2 — the radius invariant -/

/-- The accumulator never decreases along `maxRadiusSquaredAux`. -/
theorem le_maxRadiusSquaredAux (s : α) : ∀ (m : α) (ps : List α),
    m ≤ Entity.maxRadiusSquaredAux s m ps
  | m, [] => le_refl m
  | m, [_] => le_refl m
  | m, px :: py :: rest => by
      have ih := le_maxRadiusSquaredAux s
        (if m < (s * px) * (s * px) + (s * py) * (s * py)
         then (s * px) * (s * px) + (s * py) * (s * py) else m) rest
      refine le_trans ?_ ih
      split_ifs with h
      · exact h.le
      · exact le_refl m

/-- The source's `if (max < v) max = v` update is the max. -/
theorem ite_lt_eq_max (a b : α) : (if a < b then b else a) = max a b := by
  split_ifs with h
  · exact (max_eq_right h.le).symm
  · exact (max_eq_left (not_lt.mp h)).symm

/-- Lemma: `Real.sqrt` commutes with `max`. -/
theorem real_sqrt_max (a b : ℝ) :
    Real.sqrt (max a b) = max (Real.sqrt a) (Real.sqrt b) := by
  rcases le_total a b with h | h
  · rw [max_eq_right h, max_eq_right (Real.sqrt_le_sqrt h)]
  · rw [max_eq_left h, max_eq_left (Real.sqrt_le_sqrt h)]

/-- Lemma: `Real.sqrt` of the code's running maximum of squares is the
spec's running maximum of square roots. -/
theorem sqrt_maxRadiusSquaredAux (s : ℝ) : ∀ (m : ℝ) (ps : List ℝ),
    Real.sqrt (Entity.maxRadiusSquaredAux s m ps) =
      specRadiusAux Real.sqrt s (Real.sqrt m) ps
  | _, [] => rfl
  | _, [_] => rfl
  | m, px :: py :: rest => by
      have ih := sqrt_maxRadiusSquaredAux s
        (if m < (s * px) * (s * px) + (s * py) * (s * py)
         then (s * px) * (s * px) + (s * py) * (s * py) else m) rest
      calc Real.sqrt (Entity.maxRadiusSquaredAux s m (px :: py :: rest))
          = specRadiusAux Real.sqrt s
              (Real.sqrt (if m < (s * px) * (s * px) + (s * py) * (s * py)
                then (s * px) * (s * px) + (s * py) * (s * py) else m))
              rest := ih
        _ = specRadiusAux Real.sqrt s
              (max (Real.sqrt m)
                (Real.sqrt ((s * px) * (s * px) + (s * py) * (s * py))))
              rest := by rw [ite_lt_eq_max, real_sqrt_max]
        _ = specRadiusAux Real.sqrt s (Real.sqrt m) (px :: py :: rest) := rfl

/-- After `Entity.updateRadius`, the stored radius is the spec's
maximum of point distances and `radiusSquared` is its square. -/
theorem updateRadius_radius (e : Entity ℝ) :
    (e.updateRadius Real.sqrt).radius =
      specRadius Real.sqrt e.scale e.points ∧
    (e.updateRadius Real.sqrt).radiusSquared =
      (e.updateRadius Real.sqrt).radius ^ 2 := by
  constructor
  · show Real.sqrt (Entity.maxRadiusSquared e.scale e.points) = _
    unfold Entity.maxRadiusSquared specRadius
    rw [sqrt_maxRadiusSquaredAux, Real.sqrt_zero]
  · show Entity.maxRadiusSquared e.scale e.points =
      Real.sqrt (Entity.maxRadiusSquared e.scale e.points) ^ 2
    have hnn : (0 : ℝ) ≤ Entity.maxRadiusSquared e.scale e.points :=
      le_maxRadiusSquaredAux e.scale 0 e.points
    rw [Real.sq_sqrt hnn]

/-- After `Ship.updateRadius`, the stored radius is 0.8 times the
spec's maximum and `radiusSquared` is its square. -/
theorem shipUpdateRadius_radius (sh : Ship ℝ) :
    (Ship.updateRadius Real.sqrt sh).radius =
      (4 / 5) * specRadius Real.sqrt sh.scale sh.points ∧
    (Ship.updateRadius Real.sqrt sh).radiusSquared =
      (Ship.updateRadius Real.sqrt sh).radius ^ 2 := by
  constructor
  · show (sh.toEntity.updateRadius Real.sqrt).radius * (4 / 5) = _
    rw [(updateRadius_radius sh.toEntity).1]
    ring
  · show (sh.toEntity.updateRadius Real.sqrt).radius * (4 / 5) *
      ((sh.toEntity.updateRadius Real.sqrt).radius * (4 / 5)) =
      (Ship.updateRadius Real.sqrt sh).radius ^ 2
    exact (pow_two
      ((sh.toEntity.updateRadius Real.sqrt).radius * (4 / 5))).symm

/-- Amended claim C2: after any `setPoints`, `setScale` or `spawn`,
a (non-ship) entity's radius equals the maximum over its points of
`sqrt((scale*x)^2 + (scale*y)^2)` and `radiusSquared` equals
`radius^2`; for a Ship the radius instead equals 0.8 times that
maximum (`radiusSquared` still its square).  A `spawn` given neither
scale nor points leaves the cached values untouched, so there the
invariant is preserved rather than re-established. -/
theorem radius_invariant_amended :
    (∀ (e : Entity ℝ) (ps : List ℝ) (sc : Option ℝ),
      radiusSpecInv (Entity.setPoints Real.sqrt ps sc e)) ∧
    (∀ (e : Entity ℝ) (sc : ℝ),
      radiusSpecInv (Entity.setScale Real.sqrt sc e)) ∧
    (∀ (e : Entity ℝ) (x y vx vy an sc : Option ℝ) (ps : Option (List ℝ)),
      radiusSpecInv e →
      radiusSpecInv (Entity.spawn Real.sqrt x y vx vy an sc ps e)) ∧
    (∀ (sh : Ship ℝ) (ps : List ℝ) (sc : Option ℝ),
      shipRadiusSpecInv (Ship.setPoints Real.sqrt ps sc sh)) ∧
    (∀ (sh : Ship ℝ) (sc : ℝ),
      shipRadiusSpecInv (Ship.setScale Real.sqrt sc sh)) ∧
    (∀ (sh : Ship ℝ) (x y vx vy an sc : Option ℝ) (ps : Option (List ℝ)),
      shipRadiusSpecInv (Ship.spawn Real.sqrt x y vx vy an sc ps sh)) := by
  have hsetP : ∀ (e : Entity ℝ) (ps : List ℝ) (sc : Option ℝ),
      radiusSpecInv (Entity.setPoints Real.sqrt ps sc e) := by
    intro e ps sc
    cases sc with
    | none =>
        exact ⟨(updateRadius_radius { e with points := ps }).1,
               (updateRadius_radius { e with points := ps }).2⟩
    | some s =>
        exact ⟨(updateRadius_radius { e with points := ps, scale := s }).1,
               (updateRadius_radius { e with points := ps, scale := s }).2⟩
  have hsetS : ∀ (e : Entity ℝ) (sc : ℝ),
      radiusSpecInv (Entity.setScale Real.sqrt sc e) := by
    intro e sc
    exact ⟨(updateRadius_radius { e with scale := sc }).1,
           (updateRadius_radius { e with scale := sc }).2⟩
  have hshipP : ∀ (sh : Ship ℝ) (ps : List ℝ) (sc : Option ℝ),
      shipRadiusSpecInv (Ship.setPoints Real.sqrt ps sc sh) := by
    intro sh ps sc
    cases sc with
    | none =>
        exact ⟨(shipUpdateRadius_radius
            { sh with toEntity := { sh.toEntity with points := ps } }).1,
          (shipUpdateRadius_radius
            { sh with toEntity := { sh.toEntity with points := ps } }).2⟩
    | some s =>
        exact ⟨(shipUpdateRadius_radius
            { sh with toEntity :=
                { sh.toEntity with points := ps, scale := s } }).1,
          (shipUpdateRadius_radius
            { sh with toEntity :=
                { sh.toEntity with points := ps, scale := s } }).2⟩
  have hshipS : ∀ (sh : Ship ℝ) (sc : ℝ),
      shipRadiusSpecInv (Ship.setScale Real.sqrt sc sh) := by
    intro sh sc
    exact ⟨(shipUpdateRadius_radius
        { sh with toEntity := { sh.toEntity with scale := sc } }).1,
      (shipUpdateRadius_radius
        { sh with toEntity := { sh.toEntity with scale := sc } }).2⟩
  refine ⟨hsetP, hsetS, ?_, hshipP, hshipS, ?_⟩
  · intro e x y vx vy an sc ps h
    unfold Entity.spawn
    cases ps with
    | some p => exact hsetP _ p _
    | none =>
        cases sc with
        | some s => exact hsetS _ s
        | none => exact h
  · intro sh x y vx vy an sc ps
    have key : ∀ (s1 : Ship ℝ) (psv : List ℝ) (scv : Option ℝ),
        shipRadiusSpecInv { Ship.setPoints Real.sqrt psv scv s1 with
          bulletTimer := 0, thrusting := false } := by
      intro s1 psv scv
      have h := hshipP s1 psv scv
      exact ⟨h.1, h.2⟩
    exact key _ _ _

/-- Claim C2 is false as stated for Ships: after `setScale`,
`cexShip` stores radius `0.8 * 5 = 4`, not the claimed maximum 5 —
`Ship.prototype.updateRadius` multiplies the inherited radius by
0.8. -/
theorem ship_radius_differs_from_spec :
    (Ship.setScale Real.sqrt 1 cexShip).radius ≠
      specRadius Real.sqrt (Ship.setScale Real.sqrt 1 cexShip).scale
        (Ship.setScale Real.sqrt 1 cexShip).points := by
  have h25 : Real.sqrt 25 = 5 := by
    rw [show (25 : ℝ) = 5 ^ 2 by norm_num, Real.sqrt_sq (by norm_num)]
  have hm : Entity.maxRadiusSquared (1 : ℝ) [3, 4] = 25 := by
    norm_num [Entity.maxRadiusSquared, Entity.maxRadiusSquaredAux]
  have hr : (Ship.setScale Real.sqrt 1 cexShip).radius = 4 := by
    show Real.sqrt (Entity.maxRadiusSquared (1 : ℝ) [3, 4]) * (4 / 5) = 4
    rw [hm, h25]
    norm_num
  have hs : specRadius Real.sqrt (Ship.setScale Real.sqrt 1 cexShip).scale
      (Ship.setScale Real.sqrt 1 cexShip).points = 5 := by
    show specRadiusAux Real.sqrt (1 : ℝ) 0 [3, 4] = 5
    show max (0 : ℝ) (Real.sqrt ((1 * 3) * (1 * 3) + (1 * 4) * (1 * 4))) = 5
    rw [show ((1 : ℝ) * 3) * (1 * 3) + (1 * 4) * (1 * 4) = 25 by norm_num,
      h25]
    norm_num
  rw [hr, hs]
  norm_num

/-- Witness for the amended claim C2 at concrete inputs, including a
no-scale no-points spawn whose preservation hypothesis is discharged
on the blank entity. -/
theorem radius_invariant_amended_witness :
    radiusSpecInv blankEnt ∧
    radiusSpecInv
      (Entity.spawn Real.sqrt (some 1) none none none none none none
        blankEnt) ∧
    radiusSpecInv (Entity.setPoints Real.sqrt [3, 4] none blankEnt) ∧
    shipRadiusSpecInv (Ship.setScale Real.sqrt 2 cexShip) :=
  have h0 : radiusSpecInv blankEnt := ⟨rfl, by norm_num [blankEnt]⟩
  ⟨h0,
   radius_invariant_amended.2.2.1 blankEnt (some 1) none none none none
     none none h0,
   radius_invariant_amended.1 blankEnt [3, 4] none,
   radius_invariant_amended.2.2.2.2.1 cexShip 2⟩

/-! ## Claim C5 — asteroid fragmentation -/

/-- A velocity of magnitude `v * f` (both factors nonnegative) along
the heading `(cos t, -sin t)` has speed `v * f`: the form of the
child velocities in `Asteroid.die`. -/
theorem speedOf_heading (t v f : ℝ) (hv : 0 ≤ v) (hf : 0 ≤ f) :
    speedOf Real.sqrt (Real.cos t * v * f) (-(Real.sin t) * v * f) =
      v * f := by
  unfold speedOf
  have hp : Real.cos t * v * f * (Real.cos t * v * f) +
      -(Real.sin t) * v * f * (-(Real.sin t) * v * f) = (v * f) ^ 2 := by
    have h1 := Real.sin_sq_add_cos_sq t
    linear_combination (v * f) ^ 2 * h1
  rw [hp, Real.sqrt_sq (mul_nonneg hv hf)]

/-- Claim C5: `Asteroid.die` always spawns an Explosion at the
asteroid's position and scale and marks the asteroid dead; on a
large-scale (64) asteroid it spawns exactly two children at the
medium scale (32) whose speeds are 0.4 and 0.6 of three times the
parent's speed; on a small-scale (12) asteroid it spawns no
children. -/
theorem asteroid_fragmentation (atan2F : ℝ → ℝ → ℝ) (rand : ℕ → ℝ)
    (a : Entity ℝ) :
    (Asteroid.die Real.sqrt Real.cos Real.sin atan2F rand a).explosion =
      ⟨a.x, a.y, a.scale⟩ ∧
    (Asteroid.die Real.sqrt Real.cos Real.sin atan2F rand a).asteroid.dead =
      true ∧
    (a.scale = asteroidLargeScale →
      ∃ c1 c2,
        (Asteroid.die Real.sqrt Real.cos Real.sin atan2F rand a).children =
          [c1, c2] ∧
        c1.scale = asteroidMediumScale ∧ c2.scale = asteroidMediumScale ∧
        speedOf Real.sqrt c1.vx c1.vy = (2 / 5) * (3 * speedOf Real.sqrt a.vx a.vy) ∧
        speedOf Real.sqrt c2.vx c2.vy = (3 / 5) * (3 * speedOf Real.sqrt a.vx a.vy)) ∧
    (a.scale = asteroidSmallScale →
      (Asteroid.die Real.sqrt Real.cos Real.sin atan2F rand a).children =
        []) := by
  refine ⟨?_, ?_, ?_, ?_⟩
  · simp only [Asteroid.die]
    split_ifs <;> rfl
  · simp only [Asteroid.die]
    split_ifs <;> rfl
  · intro h64
    have h1 : ¬a.scale - 1 < asteroidSmallScale := by
      rw [h64]
      norm_num [asteroidSmallScale, asteroidLargeScale]
    have h2 : ¬a.scale - 1 < asteroidMediumScale := by
      rw [h64]
      norm_num [asteroidMediumScale, asteroidLargeScale]
    have hvnn : (0 : ℝ) ≤ Real.sqrt (a.vx * a.vx + a.vy * a.vy) * 3 :=
      mul_nonneg (Real.sqrt_nonneg _) (by norm_num)
    simp only [Asteroid.die, if_neg h1, if_neg h2]
    refine ⟨_, _, rfl, rfl, rfl, ?_, ?_⟩
    · show speedOf Real.sqrt
        (Real.cos (atan2F (-a.vy) a.vx + (rand 0 - 1 / 2)) *
          (Real.sqrt (a.vx * a.vx + a.vy * a.vy) * 3) * (2 / 5))
        (-(Real.sin (atan2F (-a.vy) a.vx + (rand 0 - 1 / 2))) *
          (Real.sqrt (a.vx * a.vx + a.vy * a.vy) * 3) * (2 / 5)) =
        2 / 5 * (3 * speedOf Real.sqrt a.vx a.vy)
      rw [speedOf_heading _ _ _ hvnn (by norm_num)]
      show Real.sqrt (a.vx * a.vx + a.vy * a.vy) * 3 * (2 / 5) =
        2 / 5 * (3 * Real.sqrt (a.vx * a.vx + a.vy * a.vy))
      ring
    · show speedOf Real.sqrt
        (Real.cos (atan2F (-a.vy) a.vx + (rand 0 - 1 / 2) + (rand 1 - 1 / 2)) *
          (Real.sqrt (a.vx * a.vx + a.vy * a.vy) * 3) * (1 - 2 / 5))
        (-(Real.sin (atan2F (-a.vy) a.vx + (rand 0 - 1 / 2) +
            (rand 1 - 1 / 2))) *
          (Real.sqrt (a.vx * a.vx + a.vy * a.vy) * 3) * (1 - 2 / 5)) =
        3 / 5 * (3 * speedOf Real.sqrt a.vx a.vy)
      rw [speedOf_heading _ _ _ hvnn (by norm_num)]
      show Real.sqrt (a.vx * a.vx + a.vy * a.vy) * 3 * (1 - 2 / 5) =
        3 / 5 * (3 * Real.sqrt (a.vx * a.vx + a.vy * a.vy))
      ring
  · intro h12
    have h1 : a.scale - 1 < asteroidSmallScale := by
      rw [h12]
      norm_num [asteroidSmallScale]
    simp only [Asteroid.die, if_pos h1]

/-- Witness for claim C5: killing the large asteroid yields two
medium children with the 0.4/0.6 split of 3x the parent speed;
killing the small one yields no children. -/
theorem asteroid_fragmentation_witness :
    wAstL.scale = asteroidLargeScale ∧ wAstS.scale = asteroidSmallScale ∧
    (∃ c1 c2,
      (Asteroid.die Real.sqrt Real.cos Real.sin (fun _ _ => 0)
        (fun _ => 1 / 2) wAstL).children = [c1, c2] ∧
      c1.scale = asteroidMediumScale ∧ c2.scale = asteroidMediumScale ∧
      speedOf Real.sqrt c1.vx c1.vy = (2 / 5) * (3 * speedOf Real.sqrt wAstL.vx wAstL.vy) ∧
      speedOf Real.sqrt c2.vx c2.vy = (3 / 5) * (3 * speedOf Real.sqrt wAstL.vx wAstL.vy)) ∧
    (Asteroid.die Real.sqrt Real.cos Real.sin (fun _ _ => 0)
      (fun _ => 1 / 2) wAstS).children = [] :=
  ⟨by norm_num [wAstL, asteroidLargeScale],
   by norm_num [wAstS, asteroidSmallScale],
   (asteroid_fragmentation (fun _ _ => 0) (fun _ => 1 / 2) wAstL).2.2.1
     (by norm_num [wAstL, asteroidLargeScale]),
   (asteroid_fragmentation (fun _ _ => 0) (fun _ => 1 / 2) wAstS).2.2.2
     (by norm_num [wAstS, asteroidSmallScale])⟩

end Spacerocks
